import Mathlib

/-!
Shallow embedding of the caching and dispatch layer of the
`language_translation` repository, together with proofs of the spec's
testable properties.

Sources embedded:
* `src/services/translation_cache.py` — `TranslationCacheService`
  (two-tier cache: in-memory dict + durable rows).
* `src/core/ai_translator.py` — `AILocalTranslator` (dispatcher:
  `translate_text`, `translate_to_all_languages`, `batch_translate`,
  `detect_language`).
* `src/utils/ollama_client.py` — `OllamaClient.pull_model`.
* `src/models/translation_models.py` — `TranslationCache` row defaults
  (`hit_count = 1`, `created_at = now`, `last_accessed = now`).

Modelling conventions: timestamps are integers (seconds); `datetime.now()`
becomes an explicit `now : Int` argument to each operation; a Python
`Optional[str]` return is `Option String`; the Python float
`confidence_score` is `Option ℚ` (it is only stored and copied, never
computed with); the in-memory dict is an insertion-ordered association
list; durable rows are a list, with SQLAlchemy `scalar_one_or_none`
modelled as first-match lookup guarded by an explicit "two or more
matching rows raises, the exception is caught" branch, exactly as the
`try/except` blocks in the source swallow it.
-/

namespace LangTrans

/-- In-memory cache entry: the `cached_data` dict built in
`TranslationCacheService.get_cached_translation` / `cache_translation`. -/
structure MemEntry where
  translated_text : String
  model_used : String
  confidence_score : Option ℚ
  cached_at : Int
  hit_count : Nat
deriving Repr, DecidableEq

/-- Durable cache row: the `TranslationCache` SQLAlchemy model
(`src/models/translation_models.py`). -/
structure CacheRow where
  source_text : String
  source_language : String
  target_language : String
  translated_text : String
  model_used : String
  confidence_score : Option ℚ
  hit_count : Nat
  created_at : Int
  last_accessed : Int
deriving Repr, DecidableEq

/-- State of `TranslationCacheService`: `self.memory_cache` plus the
durable `translation_cache` table. -/
structure CacheState where
  memory : List (String × MemEntry)
  db : List CacheRow
deriving Repr, DecidableEq

/-- Embedding of the memory-cache key: an f-string joining source_lang,
target_lang and source_text with colons. -/
def cacheKey (source_lang target_lang source_text : String) : String :=
  source_lang ++ ":" ++ target_lang ++ ":" ++ source_text

/-- Python dict read: `self.memory_cache[cache_key]` (first binding wins;
keys are unique by construction of `dictSet`). -/
def dictGet (m : List (String × MemEntry)) (k : String) : Option MemEntry :=
  (m.find? (fun p => p.1 == k)).map Prod.snd

/-- Python dict write `self.memory_cache[key] = v`: replace in place when
the key exists, otherwise append (insertion order preserved). -/
def dictSet (m : List (String × MemEntry)) (k : String) (v : MemEntry) :
    List (String × MemEntry) :=
  match m with
  | [] => [(k, v)]
  | (k', v') :: rest =>
    if k' == k then (k, v) :: rest else (k', v') :: dictSet rest k v

/-- Python dict delete `del self.memory_cache[key]`. -/
def dictDel (m : List (String × MemEntry)) (k : String) :
    List (String × MemEntry) :=
  m.filter (fun p => p.1 != k)

/-- The SQL `WHERE` clause used by both lookup and store:
`source_text == t AND source_language == a AND target_language == b`. -/
def rowMatches (t a b : String) (r : CacheRow) : Bool :=
  r.source_text == t && r.source_language == a && r.target_language == b

/-- First durable row matching the composite key. -/
def dbFind (db : List CacheRow) (t a b : String) : Option CacheRow :=
  db.find? (rowMatches t a b)

/-- Number of durable rows matching the composite key; when `≥ 2`,
`scalar_one_or_none` raises and the surrounding `except` swallows it. -/
def countMatches (db : List CacheRow) (t a b : String) : Nat :=
  (db.filter (rowMatches t a b)).length

/-- In-place mutation of the row object returned by the query:
replace the first matching row. -/
def dbUpdateFirst (db : List CacheRow) (t a b : String) (r' : CacheRow) :
    List CacheRow :=
  match db with
  | [] => []
  | r :: rest =>
    if rowMatches t a b r then r' :: rest
    else r :: dbUpdateFirst rest t a b r'

/-- Model of `session.delete(cache_entry)`: remove the first matching row. -/
def dbDeleteFirst (db : List CacheRow) (t a b : String) : List CacheRow :=
  match db with
  | [] => []
  | r :: rest =>
    if rowMatches t a b r then rest else r :: dbDeleteFirst rest t a b

/-- Embedding of `TranslationCacheService._is_cache_valid`: a memory entry is valid iff
`datetime.now() - cached_at < timedelta(seconds=self.cache_ttl)`. -/
def isCacheValid (ttl now : Int) (e : MemEntry) : Bool :=
  now - e.cached_at < ttl

/-- Embedding of `TranslationCacheService._is_cache_valid_db`: same TTL rule against
the durable row's `created_at`. -/
def isCacheValidDb (ttl now : Int) (r : CacheRow) : Bool :=
  now - r.created_at < ttl

/-- Durable-tier half of `get_cached_translation` (the `try` block after
the memory tier missed or was evicted). -/
def lookupDb (ttl : Int) (st : CacheState) (now : Int)
    (source_text source_lang target_lang key : String) :
    Option MemEntry × CacheState :=
  if 2 ≤ countMatches st.db source_text source_lang target_lang then
    (none, st)
  else
    match dbFind st.db source_text source_lang target_lang with
    | none => (none, st)
    | some row =>
      if isCacheValidDb ttl now row then
        let row' : CacheRow :=
          { row with hit_count := row.hit_count + 1, last_accessed := now }
        let cached : MemEntry :=
          { translated_text := row'.translated_text
            model_used := row'.model_used
            confidence_score := row'.confidence_score
            cached_at := row'.created_at
            hit_count := row'.hit_count }
        (some cached,
          { memory := dictSet st.memory key cached
            db := dbUpdateFirst st.db source_text source_lang target_lang row' })
      else
        (none,
          { st with db := dbDeleteFirst st.db source_text source_lang target_lang })

/-- Embedding of `TranslationCacheService.get_cached_translation(source_text,
source_lang, target_lang)`: memory tier first (lazy eviction of an
expired entry), then the durable tier. -/
def get_cached_translation (ttl : Int) (st : CacheState) (now : Int)
    (source_text source_lang target_lang : String) :
    Option MemEntry × CacheState :=
  let key := cacheKey source_lang target_lang source_text
  match dictGet st.memory key with
  | some cached =>
    if isCacheValid ttl now cached then (some cached, st)
    else
      lookupDb ttl { st with memory := dictDel st.memory key } now
        source_text source_lang target_lang key
  | none => lookupDb ttl st now source_text source_lang target_lang key

/-- Embedding of `TranslationCacheService.cache_translation(source_text, source_lang,
target_lang, translated_text, model_used, confidence_score)`: no-op when
caching is disabled; otherwise overwrite the memory tier (hit count 1,
cached_at = now) and insert-or-update the durable tier.  On insert the
row takes the model defaults `hit_count = 1`, `created_at = now`,
`last_accessed = now`; on update only text, model, confidence and
last_accessed change. -/
def cache_translation (enabled : Bool) (st : CacheState) (now : Int)
    (source_text source_lang target_lang translated_text model_used : String)
    (confidence_score : Option ℚ) : CacheState :=
  if !enabled then st
  else
    let key := cacheKey source_lang target_lang source_text
    let cached : MemEntry :=
      { translated_text := translated_text
        model_used := model_used
        confidence_score := confidence_score
        cached_at := now
        hit_count := 1 }
    let mem' := dictSet st.memory key cached
    if 2 ≤ countMatches st.db source_text source_lang target_lang then
      { memory := mem', db := st.db }
    else
      match dbFind st.db source_text source_lang target_lang with
      | none =>
        let row : CacheRow :=
          { source_text := source_text
            source_language := source_lang
            target_language := target_lang
            translated_text := translated_text
            model_used := model_used
            confidence_score := confidence_score
            hit_count := 1
            created_at := now
            last_accessed := now }
        { memory := mem', db := st.db ++ [row] }
      | some row =>
        let row' : CacheRow :=
          { row with
            translated_text := translated_text
            model_used := model_used
            confidence_score := confidence_score
            last_accessed := now }
        { memory := mem'
          db := dbUpdateFirst st.db source_text source_lang target_lang row' }

/-- Python truthiness of an optional string argument (`if source_lang:`):
`None` and the empty string are falsy. -/
def strTruthy : Option String → Bool
  | none => false
  | some s => !(s == "")

/-- Python `str.startswith`: codepoint-level prefix test. -/
def strStartsWith (s p : String) : Bool :=
  p.toList.isPrefixOf s.toList

/-- The durable `DELETE ... WHERE` filter built in `clear_cache`: each
condition is added only when the corresponding argument is truthy. -/
def clearRowMatch (source_lang target_lang : Option String) (r : CacheRow) : Bool :=
  (if strTruthy source_lang then r.source_language == source_lang.getD "" else true)
    && (if strTruthy target_lang then r.target_language == target_lang.getD "" else true)

/-- Embedding of `TranslationCacheService.clear_cache(source_lang, target_lang)`:
memory tier is filtered by key prefix only when BOTH languages are given
(otherwise cleared entirely); the durable delete applies each provided
filter; the removed-row count (`result.rowcount`) is logged only.
Returns `(new state, rowcount logged, value returned to the caller)` —
the Python function ends without a `return`, so the caller receives
`None`, modelled as the constant `none` in the last component. -/
def clear_cache (st : CacheState) (source_lang target_lang : Option String) :
    CacheState × Nat × Option Nat :=
  let mem' :=
    if strTruthy source_lang && strTruthy target_lang then
      st.memory.filter
        (fun p =>
          !(strStartsWith p.1
            (source_lang.getD "" ++ ":" ++ target_lang.getD "" ++ ":")))
    else []
  let db' := st.db.filter (fun r => !(clearRowMatch source_lang target_lang r))
  (⟨mem', db'⟩, st.db.length - db'.length, none)

/-! ### Dispatcher: `src/core/ai_translator.py` -/

/-- Characters stripped by Python's `str.strip()` (the `Py_UNICODE_ISSPACE`
set): used to model the `not text or not text.strip()` guard. -/
def isPySpace (c : Char) : Bool :=
  let n := c.toNat
  (0x09 ≤ n && n ≤ 0x0d) || n == 0x20 || (0x1c ≤ n && n ≤ 0x1f) ||
    n == 0x85 || n == 0xa0 || n == 0x1680 || (0x2000 ≤ n && n ≤ 0x200a) ||
    n == 0x2028 || n == 0x2029 || n == 0x202f || n == 0x205f || n == 0x3000

/-- Truthiness of `text and text.strip()`: true iff the string has at
least one non-whitespace character. -/
def stripTruthy (text : String) : Bool :=
  text.toList.any (fun c => !isPySpace c)

/-- Embedding of `AILocalTranslator.detect_language`: character-range sniffing, branch
for branch in source order.  The body raises nothing, so the
`except` fallback to `'en'` is dead code. -/
def detect_language (text : String) : String :=
  if !stripTruthy text then "auto"
  else if text.toList.any (fun c => decide (0x4e00 ≤ c.toNat ∧ c.toNat ≤ 0x9fff))
    then "ja"
  else if text.toList.any (fun c => decide (0xac00 ≤ c.toNat ∧ c.toNat ≤ 0xd7af))
    then "ko"
  else if text.toList.any (fun c => decide (0x0400 ≤ c.toNat ∧ c.toNat ≤ 0x04ff))
    then "ru"
  else if text.toList.any (fun c => decide (0x0600 ≤ c.toNat ∧ c.toNat ≤ 0x06ff))
    then "fa"
  else if text.toList.any (fun c => decide (0x0e00 ≤ c.toNat ∧ c.toNat ≤ 0x0e7f))
    then "th"
  else if text.toList.any (fun c => decide (0x4e00 ≤ c.toNat ∧ c.toNat ≤ 0x9fff))
    then "zh"
  else "en"

/-- The configuration values the dispatcher reads from
`utils/config.py` (environment-derived, fixed for a run). -/
structure Config where
  cache_enabled : Bool
  cache_ttl : Int
  max_text_length : Nat
  model_name : String
  supported_languages : List String
deriving Repr, DecidableEq

/-- A `TranslationRequest` ledger row
(`src/models/translation_models.py`); `processing_time` is wall-clock
seconds, abstracted to `0` because the model evaluates each request at a
single instant. -/
structure LedgerEntry where
  id : Nat
  source_text : String
  source_language : String
  target_language : String
  model_used : String
  status : String
  translated_text : Option String
  processing_time : Option Int
  error_message : Option String
deriving Repr, DecidableEq

/-- Process state threaded through the dispatcher: the two-tier cache,
the request ledger, and an instrumentation counter of backend
invocations (the call-count assertion of the spec's concrete
scenario). -/
structure TransState where
  cache : CacheState
  ledger : List LedgerEntry
  backendCalls : Nat
deriving Repr, DecidableEq

/-- Embedding of `AILocalTranslator._create_translation_request`: insert a row with
status `processing` and return its autoincrement id. -/
def create_translation_request (ledger : List LedgerEntry)
    (text source_lang target_lang model_used : String) :
    Nat × List LedgerEntry :=
  let rid := ledger.length + 1
  (rid, ledger ++
    [{ id := rid
       source_text := text
       source_language := source_lang
       target_language := target_lang
       model_used := model_used
       status := "processing"
       translated_text := none
       processing_time := none
       error_message := none }])

/-- Embedding of `AILocalTranslator._update_translation_request`: apply only the
provided fields to the row with the given id; no-op when absent. -/
def update_translation_request (ledger : List LedgerEntry) (rid : Nat)
    (tt : Option String) (stat : Option String) (pt : Option Int)
    (err : Option String) : List LedgerEntry :=
  ledger.map (fun r =>
    if r.id == rid then
      { r with
        translated_text := (tt.map some).getD r.translated_text
        status := stat.getD r.status
        processing_time := (pt.map some).getD r.processing_time
        error_message := (err.map some).getD r.error_message }
    else r)

/-- Embedding of the guard `if source_language == 'auto': source_language =
await self.detect_language(text)`. -/
def resolveSource (text source_language : String) : String :=
  if source_language == "auto" then detect_language text else source_language

/-- Embedding of `AILocalTranslator.translate_text(text, target_language,
source_language)`.  The backend argument stands for
`OllamaClient.translate` (which never raises: it converts every failure
to `None`); `now` is the instant of the call.  Empty / whitespace-only
text is returned unchanged; oversized text returns `none`; then the
source language is resolved, the cache consulted when enabled, and on a
miss a ledger row is created, the backend invoked, and the ledger (and,
on success, the cache) updated.  An empty backend string is falsy in
`if translated_text:` and therefore takes the failure branch. -/
def translate_text (cfg : Config)
    (backend : String → String → String → Option String) (now : Int)
    (st : TransState) (text target_language source_language : String) :
    Option String × TransState :=
  if !stripTruthy text then (some text, st)
  else if cfg.max_text_length < text.length then (none, st)
  else
    let sl := resolveSource text source_language
    let lr :=
      if cfg.cache_enabled then
        get_cached_translation cfg.cache_ttl st.cache now text sl target_language
      else (none, st.cache)
    match lr.1 with
    | some cached => (some cached.translated_text, { st with cache := lr.2 })
    | none =>
      let st1 : TransState := { st with cache := lr.2 }
      let cr := create_translation_request st1.ledger text sl target_language
        cfg.model_name
      let st2 : TransState :=
        { st1 with ledger := cr.2, backendCalls := st1.backendCalls + 1 }
      match backend text sl target_language with
      | some translated =>
        if translated == "" then
          (none,
            { st2 with
              ledger := update_translation_request st2.ledger cr.1 none
                (some "failed") (some 0) (some "Translation failed") })
        else
          let st3 : TransState :=
            { st2 with
              ledger := update_translation_request st2.ledger cr.1
                (some translated) (some "completed") (some 0) none }
          (some translated,
            { st3 with
              cache := cache_translation cfg.cache_enabled st3.cache now text sl
                target_language translated cfg.model_name none })
      | none =>
        (none,
          { st2 with
            ledger := update_translation_request st2.ledger cr.1 none
              (some "failed") (some 0) (some "Translation failed") })

/-- The per-language closure `translate_language(target_lang)` inside
`AILocalTranslator.translate_to_all_languages`: short-circuit when the
target equals the `source_language` argument AS PASSED (no resolution
happens before the comparison), otherwise call `translate_text` and fall
back to the original text when the result is `None` or empty
(`translated or text`). -/
def translate_language (cfg : Config)
    (backend : String → String → String → Option String) (now : Int)
    (st : TransState) (text source_language target_lang : String) :
    (String × String) × TransState :=
  if target_lang == source_language then ((target_lang, text), st)
  else
    let r := translate_text cfg backend now st text target_lang source_language
    ((target_lang,
      match r.1 with
      | some t => if t == "" then text else t
      | none => text), r.2)

/-- The fan-out loop of `translate_to_all_languages`: one
`translate_language` branch per remaining language, results kept in task
order. -/
def translate_all_go (cfg : Config)
    (backend : String → String → String → Option String) (now : Int)
    (text source_language : String) :
    List String → TransState → List (String × String) × TransState
  | [], st => ([], st)
  | lang :: rest, st =>
    let r := translate_language cfg backend now st text source_language lang
    let rs := translate_all_go cfg backend now text source_language rest r.2
    (r.1 :: rs.1, rs.2)

/-- Embedding of `AILocalTranslator.translate_to_all_languages`: one branch per
configured language, results assembled in task order (`asyncio.gather`
preserves input order).  The semaphore bounds scheduling only, so the
model runs the branches in order; no branch of `translate_language`
raises, so the `isinstance(result, Exception)` arm never omits a
language here. -/
def translate_to_all_languages (cfg : Config)
    (backend : String → String → String → Option String) (now : Int)
    (st : TransState) (text source_language : String) :
    List (String × String) × TransState :=
  translate_all_go cfg backend now text source_language cfg.supported_languages st

/-- How `asyncio.gather(..., return_exceptions=True)` plus the result
loop of `batch_translate` turns a task outcome into a list slot: an
exception becomes `None`, a normal return passes through. -/
def gatherSlot : Except String (Option String) → Option String
  | .error _ => none
  | .ok v => v

/-- Embedding of `AILocalTranslator.batch_translate(texts, ...)`: one
`translate_single` task per input text (the semaphore bounds scheduling
only, so the model runs them in input order, which is also the order
`asyncio.gather` returns results in), then each exception outcome is
replaced by `None`.  `task` abstracts one `translate_single` call —
`Except.error` is a task that raised, `Except.ok` a normal
`translate_text` return. -/
def batch_translate
    (task : String → TransState → Except String (Option String) × TransState)
    (texts : List String) (st : TransState) :
    List (Option String) × TransState :=
  match texts with
  | [] => ([], st)
  | t :: rest =>
    let r := task t st
    let rs := batch_translate task rest r.2
    (gatherSlot r.1 :: rs.1, rs.2)

/-! ### Backend client: `src/utils/ollama_client.py` -/

/-- A terminal HTTP response to `POST /api/pull`: status code plus the
streamed status lines. -/
structure PullResponse where
  status_code : Nat
  lines : List String
deriving Repr, DecidableEq

/-- Embedding of `OllamaClient.pull_model(model_name)`.  The argument is the outcome
of the transport: `Except.error` is any raised transport/streaming
exception (caught, logged, `False`), `Except.ok` a terminal response.
On a 200 response the stream is drained (status lines are only logged;
JSON decode errors are swallowed) and `True` returned; any other status
falls through to `return False`.  The function is total: it never raises
to its caller. -/
def pull_model (resp : Except String PullResponse) : Bool :=
  match resp with
  | .error _ => false
  | .ok r => if r.status_code == 200 then true else false

/-! ### Helper lemmas -/

theorem dictGet_dictSet (m : List (String × MemEntry)) (k : String) (v : MemEntry) :
    dictGet (dictSet m k v) k = some v := by
  induction m with
  | nil => simp [dictGet, dictSet]
  | cons p rest ih =>
    obtain ⟨k', v'⟩ := p
    by_cases h : k' == k
    · simp [dictGet, dictSet, h]
    · simpa [dictGet, dictSet, h] using ih

theorem dictGet_dictDel (m : List (String × MemEntry)) (k : String) :
    dictGet (dictDel m k) k = none := by
  induction m with
  | nil => simp [dictGet, dictDel]
  | cons p rest ih =>
    obtain ⟨k', v'⟩ := p
    rw [dictDel, List.filter_cons]
    by_cases h : k' = k
    · simp only [h, bne_self_eq_false, if_false]
      exact ih
    · have hb : (k' != k) = true := by simp [h]
      simp only [hb, if_true]
      rw [dictGet, List.find?_cons_of_neg _ (by simp [h])]
      exact ih

theorem dbFind_cons_none (r : CacheRow) (rest : List CacheRow) (t a b : String)
    (h : dbFind (r :: rest) t a b = none) :
    rowMatches t a b r = false ∧ dbFind rest t a b = none := by
  cases hr : rowMatches t a b r
  · rw [dbFind, List.find?_cons_of_neg _ (by simp [hr])] at h
    exact ⟨rfl, h⟩
  · rw [dbFind, List.find?_cons_of_pos _ hr] at h
    exact absurd h (by simp)

theorem filter_eq_nil_of_dbFind_none (db : List CacheRow) (t a b : String)
    (h : dbFind db t a b = none) : db.filter (rowMatches t a b) = [] := by
  induction db with
  | nil => rfl
  | cons r rest ih =>
    obtain ⟨hr, h'⟩ := dbFind_cons_none r rest t a b h
    simp [hr, ih h']

theorem countMatches_eq_zero (db : List CacheRow) (t a b : String)
    (h : dbFind db t a b = none) : countMatches db t a b = 0 := by
  simp [countMatches, filter_eq_nil_of_dbFind_none db t a b h]

theorem dbFind_append_one (db : List CacheRow) (t a b : String) (row : CacheRow)
    (h : dbFind db t a b = none) (hr : rowMatches t a b row = true) :
    dbFind (db ++ [row]) t a b = some row := by
  induction db with
  | nil => rw [List.nil_append, dbFind, List.find?_cons_of_pos _ hr]
  | cons r rest ih =>
    obtain ⟨hr', h'⟩ := dbFind_cons_none r rest t a b h
    rw [List.cons_append, dbFind, List.find?_cons_of_neg _ (by simp [hr'])]
    exact ih h'

theorem countMatches_append_one (db : List CacheRow) (t a b : String) (row : CacheRow)
    (h : dbFind db t a b = none) (hr : rowMatches t a b row = true) :
    countMatches (db ++ [row]) t a b = 1 := by
  simp [countMatches, List.filter_append, filter_eq_nil_of_dbFind_none db t a b h, hr]

theorem dbUpdateFirst_append_one (db : List CacheRow) (t a b : String)
    (row r' : CacheRow) (h : dbFind db t a b = none)
    (hr : rowMatches t a b row = true) :
    dbUpdateFirst (db ++ [row]) t a b r' = db ++ [r'] := by
  induction db with
  | nil => simp [dbUpdateFirst, hr]
  | cons r rest ih =>
    obtain ⟨hr', h'⟩ := dbFind_cons_none r rest t a b h
    simp [dbUpdateFirst, hr', ih h']

theorem dbDeleteFirst_append_one (db : List CacheRow) (t a b : String)
    (row : CacheRow) (h : dbFind db t a b = none)
    (hr : rowMatches t a b row = true) :
    dbDeleteFirst (db ++ [row]) t a b = db := by
  induction db with
  | nil => simp [dbDeleteFirst, hr]
  | cons r rest ih =>
    obtain ⟨hr', h'⟩ := dbFind_cons_none r rest t a b h
    simp [dbDeleteFirst, hr', ih h']

theorem rowMatches_self (t a b x m : String) (conf : Option ℚ)
    (hc : Nat) (ca la : Int) :
    rowMatches t a b ⟨t, a, b, x, m, conf, hc, ca, la⟩ = true := by
  simp [rowMatches]

theorem cache_translation_memory (st : CacheState) (now : Int)
    (t a b x m : String) (conf : Option ℚ) :
    (cache_translation true st now t a b x m conf).memory
      = dictSet st.memory (cacheKey a b t) ⟨x, m, conf, now, 1⟩ := by
  simp only [cache_translation, Bool.not_true, Bool.false_eq_true, if_false]
  split
  · rfl
  · split <;> rfl

theorem cache_translation_db_insert (st : CacheState) (now : Int)
    (t a b x m : String) (conf : Option ℚ) (hdb : dbFind st.db t a b = none) :
    (cache_translation true st now t a b x m conf).db
      = st.db ++ [⟨t, a, b, x, m, conf, 1, now, now⟩] := by
  have hc := countMatches_eq_zero st.db t a b hdb
  simp [cache_translation, hc, hdb]

/-! ### Claim theorems -/

/-- C5 — Oversized-input rejection: for text that is non-empty (has a
non-whitespace character) and longer than the configured maximum,
`translate_text` returns `none` with the state untouched (no ledger
entry, no backend call, no cache change); empty or whitespace-only text
is returned unchanged, also with the state untouched. -/
theorem oversized_input_rejected (cfg : Config)
    (backend : String → String → String → Option String) (now : Int)
    (st : TransState) (text target source : String) :
    (stripTruthy text = true → cfg.max_text_length < text.length →
      translate_text cfg backend now st text target source = (none, st)) ∧
    (stripTruthy text = false →
      translate_text cfg backend now st text target source = (some text, st)) := by
  constructor
  · intro h1 h2
    simp [translate_text, h1, h2]
  · intro h1
    simp [translate_text, h1]

/-- Witness for C5 at concrete inputs: a 5-character non-blank text with
`max_text_length = 3` is rejected with no state change, and a blank text
is passed through. -/
theorem oversized_input_rejected_witness :
    translate_text ⟨true, 10, 3, "llama2", []⟩ (fun _ _ _ => none) 0
        ⟨⟨[], []⟩, [], 0⟩ "abcde" "vi" "en" = (none, ⟨⟨[], []⟩, [], 0⟩) ∧
    translate_text ⟨true, 10, 3, "llama2", []⟩ (fun _ _ _ => none) 0
        ⟨⟨[], []⟩, [], 0⟩ "  " "vi" "en" = (some "  ", ⟨⟨[], []⟩, [], 0⟩) := by
  exact ⟨(oversized_input_rejected _ _ _ _ "abcde" _ _).1 (by decide) (by decide),
    (oversized_input_rejected _ _ _ _ "  " _ _).2 (by decide)⟩

/-- C6 — Batch order preservation and per-item failure isolation: when
each task's outcome is determined by its own input text (`g`),
`batch_translate` returns one slot per input text, in input order, where
slot `i` is the gather-processed outcome of `texts[i]` — a failing or
raising task yields `none` at its own position and leaves every other
position equal to its own task's outcome. -/
theorem batch_translate_order (g : String → Except String (Option String))
    (task : String → TransState → Except String (Option String) × TransState)
    (hg : ∀ t st, (task t st).1 = g t) (texts : List String) (st : TransState) :
    ((batch_translate task texts st).1.length = texts.length) ∧
    (∀ i : Nat, (batch_translate task texts st).1[i]?
      = (texts[i]?).map (fun t => gatherSlot (g t))) := by
  induction texts generalizing st with
  | nil => simp [batch_translate]
  | cons t rest ih =>
    refine ⟨by simp [batch_translate, (ih _).1], ?_⟩
    intro i
    cases i with
    | zero => simp [batch_translate, hg]
    | succ n => simp [batch_translate, (ih _).2 n]

/-- Witness for C6: three texts where the task deterministically fails
on `"b"` yield `[some "ra", none, some "rc"]` — a `none` in the middle,
the neighbours untouched, in input order. -/
theorem batch_translate_order_witness :
    (batch_translate
        (fun t st =>
          (if t == "b" then Except.ok none
            else Except.ok (some (String.append "r" t)), st))
        ["a", "b", "c"] ⟨⟨[], []⟩, [], 0⟩).1[0]? = some (some "ra") ∧
    (batch_translate
        (fun t st =>
          (if t == "b" then Except.ok none
            else Except.ok (some (String.append "r" t)), st))
        ["a", "b", "c"] ⟨⟨[], []⟩, [], 0⟩).1[1]? = some none ∧
    (batch_translate
        (fun t st =>
          (if t == "b" then Except.ok none
            else Except.ok (some (String.append "r" t)), st))
        ["a", "b", "c"] ⟨⟨[], []⟩, [], 0⟩).1[2]? = some (some "rc") := by
  have h := batch_translate_order
    (fun t => if t == "b" then Except.ok none
      else Except.ok (some (String.append "r" t)))
    (fun t st =>
      (if t == "b" then Except.ok none
        else Except.ok (some (String.append "r" t)), st))
    (fun _ _ => rfl) ["a", "b", "c"] ⟨⟨[], []⟩, [], 0⟩
  refine ⟨?_, ?_, ?_⟩
  · rw [h.2 0]; rfl
  · rw [h.2 1]; rfl
  · rw [h.2 2]; rfl

/-- C8 — `pull_model` success criterion: it returns `true` exactly when
the transport raised no exception and the terminal response to the pull
request had status 200; any transport error or non-200 terminal
response yields `false`.  Being a total function into `Bool`, it never
raises. -/
theorem pull_model_success_iff (resp : Except String PullResponse) :
    pull_model resp = true ↔ ∃ r, resp = Except.ok r ∧ r.status_code = 200 := by
  cases resp with
  | error e => simp [pull_model]
  | ok r =>
    by_cases h : r.status_code = 200 <;> simp [pull_model, h]

/-- Witness for C8: a 200 streaming response yields `true`, a 404 and a
transport error yield `false`. -/
theorem pull_model_success_iff_witness :
    pull_model (Except.ok ⟨200, ["ok"]⟩) = true ∧
    pull_model (Except.ok ⟨404, []⟩) = false ∧
    pull_model (Except.error "timeout") = false := by
  refine ⟨(pull_model_success_iff _).mpr ⟨⟨200, ["ok"]⟩, rfl, rfl⟩, ?_, ?_⟩ <;> decide

/-- Any character of the CJK unified range is not Python whitespace, so
a text containing one is never empty/whitespace-only. -/
theorem isPySpace_eq_false_of_cjk (c : Char) (h : 0x4e00 ≤ c.toNat) :
    isPySpace c = false := by
  simp [isPySpace]
  omega

/-- C10 — the language-detection utility never returns `"zh"`: every
text with a character in U+4E00–U+9FFF takes the earlier `"ja"` branch
testing the identical range, so the Chinese branch is unreachable;
non-empty text matching none of the special ranges yields `"en"`; empty
or whitespace-only text yields `"auto"`. -/
theorem detect_language_never_zh (text : String) :
    detect_language text ≠ "zh" ∧
    ((∃ c ∈ text.toList, 0x4e00 ≤ c.toNat ∧ c.toNat ≤ 0x9fff) →
      detect_language text = "ja") ∧
    ((∀ c ∈ text.toList, isPySpace c = true) → detect_language text = "auto") ∧
    ((∃ c ∈ text.toList, isPySpace c = false) →
      (∀ c ∈ text.toList,
        ¬(0x4e00 ≤ c.toNat ∧ c.toNat ≤ 0x9fff) ∧
        ¬(0xac00 ≤ c.toNat ∧ c.toNat ≤ 0xd7af) ∧
        ¬(0x0400 ≤ c.toNat ∧ c.toNat ≤ 0x04ff) ∧
        ¬(0x0600 ≤ c.toNat ∧ c.toNat ≤ 0x06ff) ∧
        ¬(0x0e00 ≤ c.toNat ∧ c.toNat ≤ 0x0e7f)) →
      detect_language text = "en") := by
  refine ⟨?_, ?_, ?_, ?_⟩
  · by_cases h0 : stripTruthy text = true
    · by_cases h1 : text.toList.any
          (fun c => decide (0x4e00 ≤ c.toNat ∧ c.toNat ≤ 0x9fff)) = true
      · simp only [detect_language, h0, h1]
        simp
      · rw [Bool.not_eq_true] at h1
        cases h2 : text.toList.any
            (fun c => decide (0xac00 ≤ c.toNat ∧ c.toNat ≤ 0xd7af)) <;>
        cases h3 : text.toList.any
            (fun c => decide (0x0400 ≤ c.toNat ∧ c.toNat ≤ 0x04ff)) <;>
        cases h4 : text.toList.any
            (fun c => decide (0x0600 ≤ c.toNat ∧ c.toNat ≤ 0x06ff)) <;>
        cases h5 : text.toList.any
            (fun c => decide (0x0e00 ≤ c.toNat ∧ c.toNat ≤ 0x0e7f)) <;>
        · simp only [detect_language, h0, h1, h2, h3, h4, h5]
          simp
    · rw [Bool.not_eq_true] at h0
      simp only [detect_language, h0]
      simp
  · rintro ⟨c, hc, hr⟩
    have hst : stripTruthy text = true := by
      rw [stripTruthy, List.any_eq_true]
      exact ⟨c, hc, by simp [isPySpace_eq_false_of_cjk c hr.1]⟩
    have h1 : text.toList.any
        (fun c => decide (0x4e00 ≤ c.toNat ∧ c.toNat ≤ 0x9fff)) = true := by
      rw [List.any_eq_true]
      exact ⟨c, hc, by simpa using hr⟩
    simp only [detect_language, hst, h1]
    simp
  · intro hall
    have h0 : stripTruthy text = false := by
      rw [stripTruthy, List.any_eq_false]
      intro c hc
      simp [hall c hc]
    simp only [detect_language, h0]
    simp
  · rintro ⟨c0, hc0, hs0⟩ hall
    have h0 : stripTruthy text = true := by
      rw [stripTruthy, List.any_eq_true]
      exact ⟨c0, hc0, by simp [hs0]⟩
    have h1 : text.toList.any
        (fun c => decide (0x4e00 ≤ c.toNat ∧ c.toNat ≤ 0x9fff)) = false := by
      rw [List.any_eq_false]; intro c hc; simpa using (hall c hc).1
    have h2 : text.toList.any
        (fun c => decide (0xac00 ≤ c.toNat ∧ c.toNat ≤ 0xd7af)) = false := by
      rw [List.any_eq_false]; intro c hc; simpa using (hall c hc).2.1
    have h3 : text.toList.any
        (fun c => decide (0x0400 ≤ c.toNat ∧ c.toNat ≤ 0x04ff)) = false := by
      rw [List.any_eq_false]; intro c hc; simpa using (hall c hc).2.2.1
    have h4 : text.toList.any
        (fun c => decide (0x0600 ≤ c.toNat ∧ c.toNat ≤ 0x06ff)) = false := by
      rw [List.any_eq_false]; intro c hc; simpa using (hall c hc).2.2.2.1
    have h5 : text.toList.any
        (fun c => decide (0x0e00 ≤ c.toNat ∧ c.toNat ≤ 0x0e7f)) = false := by
      rw [List.any_eq_false]; intro c hc; simpa using (hall c hc).2.2.2.2
    simp only [detect_language, h0, h1, h2, h3, h4, h5]
    simp

/-- Witness for C10 at concrete texts: a CJK text detects as `"ja"` (not
`"zh"`), a Latin text as `"en"`, a blank text as `"auto"`. -/
theorem detect_language_never_zh_witness :
    detect_language "日" = "ja" ∧ detect_language "Hi" = "en" ∧
    detect_language " " = "auto" ∧ detect_language "日" ≠ "zh" := by
  refine ⟨(detect_language_never_zh "日").2.1 (by decide),
    (detect_language_never_zh "Hi").2.2.2 (by decide) (by decide),
    (detect_language_never_zh " ").2.2.1 (by decide),
    (detect_language_never_zh "日").1⟩

/-- C1 — Cache round-trip: with caching enabled and a positive TTL,
`store(t, a, b, x)` at time `now` followed immediately by
`lookup(t, a, b)` at the same time returns an entry whose translated
text is `x`, from any starting cache state and for any non-empty `t`. -/
theorem cache_round_trip (ttl now : Int) (st : CacheState)
    (t a b x m : String) (conf : Option ℚ) (_ht : t ≠ "") (httl : 0 < ttl) :
    ∃ e, (get_cached_translation ttl
        (cache_translation true st now t a b x m conf) now t a b).1 = some e ∧
      e.translated_text = x := by
  refine ⟨⟨x, m, conf, now, 1⟩, ?_, rfl⟩
  have hmem := cache_translation_memory st now t a b x m conf
  have hvalid : isCacheValid ttl now ⟨x, m, conf, now, 1⟩ = true := by
    simp only [isCacheValid]
    simp only [sub_self]
    exact decide_eq_true httl
  simp [get_cached_translation, hmem, dictGet_dictSet, hvalid]

/-- Witness for C1: storing `"chao"` for `("hi", "en", "vi")` in the
empty cache with TTL 1 and looking it up at the same instant returns an
entry carrying `"chao"`. -/
theorem cache_round_trip_witness :
    ∃ e, (get_cached_translation 1
        (cache_translation true ⟨[], []⟩ 0 "hi" "en" "vi" "chao" "m" none)
        0 "hi" "en" "vi").1 = some e ∧ e.translated_text = "chao" :=
  cache_round_trip 1 0 ⟨[], []⟩ "hi" "en" "vi" "chao" "m" none
    (by decide) (by decide)

theorem dbUpdateFirst_map_hit (db : List CacheRow) (t a b : String)
    (row r' : CacheRow) (hf : dbFind db t a b = some row)
    (hh : r'.hit_count = row.hit_count) :
    (dbUpdateFirst db t a b r').map CacheRow.hit_count
      = db.map CacheRow.hit_count := by
  induction db with
  | nil => simp [dbFind] at hf
  | cons r rest ih =>
    cases hr : rowMatches t a b r
    · rw [dbFind, List.find?_cons_of_neg _ (by simp [hr])] at hf
      simp [dbUpdateFirst, hr, ih hf]
    · rw [dbFind, List.find?_cons_of_pos _ hr] at hf
      injection hf with hf
      subst hf
      simp [dbUpdateFirst, hr, hh]

theorem cache_translation_db_update (st : CacheState) (now : Int)
    (t a b x m : String) (conf : Option ℚ) (row : CacheRow)
    (hcnt : countMatches st.db t a b < 2)
    (hf : dbFind st.db t a b = some row) :
    (cache_translation true st now t a b x m conf).db
      = dbUpdateFirst st.db t a b
          { row with
            translated_text := x
            model_used := m
            confidence_score := conf
            last_accessed := now } := by
  have hc2 : ¬ 2 ≤ countMatches st.db t a b := by omega
  simp [cache_translation, hc2, hf]

/-- C3 — Idempotent overwrite in the durable tier: from a state with no
durable row for the composite key, one `store` leaves exactly one
matching row (hit count 1, creation and last-accessed timestamps = store
time); a second `store` with different text/model/confidence still
leaves exactly one matching row, carrying the latest text, the same hit
count 1, the ORIGINAL creation timestamp and the new last-accessed
timestamp; and in general `store` never changes any durable row's hit
count — it at most appends a fresh row with hit count 1. -/
theorem durable_idempotent_overwrite (st : CacheState)
    (t a b x1 m1 x2 m2 : String) (c1 c2 : Option ℚ) (now1 now2 : Int)
    (hdb : dbFind st.db t a b = none) :
    ((cache_translation true st now1 t a b x1 m1 c1).db.filter (rowMatches t a b)
      = [⟨t, a, b, x1, m1, c1, 1, now1, now1⟩]) ∧
    ((cache_translation true (cache_translation true st now1 t a b x1 m1 c1)
        now2 t a b x2 m2 c2).db.filter (rowMatches t a b)
      = [⟨t, a, b, x2, m2, c2, 1, now1, now2⟩]) ∧
    (∀ (st' : CacheState) (now : Int) (x m : String) (c : Option ℚ),
      ((cache_translation true st' now t a b x m c).db.map CacheRow.hit_count
          = st'.db.map CacheRow.hit_count) ∨
      ((cache_translation true st' now t a b x m c).db.map CacheRow.hit_count
          = st'.db.map CacheRow.hit_count ++ [1])) := by
  have hrow1 : rowMatches t a b (⟨t, a, b, x1, m1, c1, 1, now1, now1⟩ : CacheRow)
      = true := rowMatches_self t a b x1 m1 c1 1 now1 now1
  have hdb1 : (cache_translation true st now1 t a b x1 m1 c1).db
      = st.db ++ [⟨t, a, b, x1, m1, c1, 1, now1, now1⟩] :=
    cache_translation_db_insert st now1 t a b x1 m1 c1 hdb
  refine ⟨?_, ?_, ?_⟩
  · rw [hdb1, List.filter_append, filter_eq_nil_of_dbFind_none st.db t a b hdb]
    simp [hrow1]
  · have hfind2 : dbFind (cache_translation true st now1 t a b x1 m1 c1).db t a b
        = some ⟨t, a, b, x1, m1, c1, 1, now1, now1⟩ := by
      rw [hdb1]
      exact dbFind_append_one st.db t a b _ hdb hrow1
    have hcnt2 : countMatches (cache_translation true st now1 t a b x1 m1 c1).db
        t a b = 1 := by
      rw [hdb1]
      exact countMatches_append_one st.db t a b _ hdb hrow1
    have hupd := cache_translation_db_update
      (cache_translation true st now1 t a b x1 m1 c1) now2 t a b x2 m2 c2
      ⟨t, a, b, x1, m1, c1, 1, now1, now1⟩ (by omega) hfind2
    rw [hupd, hdb1, dbUpdateFirst_append_one st.db t a b _ _ hdb hrow1,
      List.filter_append, filter_eq_nil_of_dbFind_none st.db t a b hdb]
    simp [rowMatches_self]
  · intro st' now x m c
    by_cases hc : 2 ≤ countMatches st'.db t a b
    · left
      simp [cache_translation, hc]
    · cases hf : dbFind st'.db t a b with
      | none =>
        right
        rw [cache_translation_db_insert st' now t a b x m c hf]
        simp
      | some row =>
        left
        rw [cache_translation_db_update st' now t a b x m c row (by omega) hf]
        exact dbUpdateFirst_map_hit st'.db t a b row _ hf rfl

/-- Witness for C3: two stores for `("hi", "en", "vi")` into the empty
cache leave exactly one durable row with the second text, hit count 1,
the first store's creation time and the second store's last-accessed
time. -/
theorem durable_idempotent_overwrite_witness :
    (cache_translation true (cache_translation true ⟨[], []⟩ 5 "hi" "en" "vi"
        "chao1" "m1" none) 9 "hi" "en" "vi" "chao2" "m2" none).db.filter
      (rowMatches "hi" "en" "vi")
      = [⟨"hi", "en", "vi", "chao2", "m2", none, 1, 5, 9⟩] :=
  (durable_idempotent_overwrite ⟨[], []⟩ "hi" "en" "vi" "chao1" "m1" "chao2" "m2"
    none none 5 9 (by decide)).2.1

theorem length_filter_not_add (l : List CacheRow) (p : CacheRow → Bool) :
    (l.filter p).length + (l.filter (fun r => !(p r))).length = l.length := by
  induction l with
  | nil => rfl
  | cons r rest ih =>
    cases h : p r <;> simp [List.filter_cons, h] <;> omega

/-- C9 counterexample: clearing with only a source-language filter
(`source_lang = "en"`, `target_lang = None`) removes the in-memory entry
keyed `fr:de:y` as well — which does not match the filter — leaving the
memory tier empty, and the call returns `None` to its caller rather than
the number of durable rows removed. -/
theorem clear_filter_counterexample :
    ((clear_cache
        ⟨[("en:vi:hi", ⟨"x", "m", none, 0, 1⟩), ("fr:de:y", ⟨"x", "m", none, 0, 1⟩)],
          [⟨"hi", "en", "vi", "x", "m", none, 1, 0, 0⟩,
           ⟨"y", "fr", "de", "x", "m", none, 1, 0, 0⟩]⟩
        (some "en") none).1.memory = []) ∧
    ((clear_cache
        ⟨[("en:vi:hi", ⟨"x", "m", none, 0, 1⟩), ("fr:de:y", ⟨"x", "m", none, 0, 1⟩)],
          [⟨"hi", "en", "vi", "x", "m", none, 1, 0, 0⟩,
           ⟨"y", "fr", "de", "x", "m", none, 1, 0, 0⟩]⟩
        (some "en") none).2.2 = none) := by
  decide

/-- C9 (amended) — `clear` filter semantics: a single-sided (or absent)
filter clears ALL in-memory entries; only when both languages are given
(and non-empty) is the memory tier filtered by the `src:tgt:` key
prefix; the durable delete applies exactly the provided one- or
two-sided filter, the number of removed durable rows equals the number
of matching rows and is only logged — the function returns `None` to
its caller. -/
theorem clear_filter_amended (st : CacheState) (sl tl : Option String) :
    ((strTruthy sl && strTruthy tl) = false → (clear_cache st sl tl).1.memory = []) ∧
    ((strTruthy sl && strTruthy tl) = true →
      (clear_cache st sl tl).1.memory
        = st.memory.filter (fun p =>
            !(strStartsWith p.1 (sl.getD "" ++ ":" ++ tl.getD "" ++ ":")))) ∧
    ((clear_cache st sl tl).1.db
        = st.db.filter (fun r => !(clearRowMatch sl tl r))) ∧
    ((clear_cache st sl tl).2.1 = (st.db.filter (clearRowMatch sl tl)).length) ∧
    ((clear_cache st sl tl).2.2 = none) := by
  refine ⟨?_, ?_, rfl, ?_, rfl⟩
  · intro h
    simp [clear_cache, h]
  · intro h
    simp [clear_cache, h]
  · have hadd := length_filter_not_add st.db (clearRowMatch sl tl)
    simp only [clear_cache]
    omega

/-- Witness for C9 (amended): with only the source filter `"en"`, a
non-matching in-memory entry is still cleared (memory ends empty), the
durable tier keeps only non-matching rows, and the caller gets `None`. -/
theorem clear_filter_amended_witness :
    ((clear_cache ⟨[("fr:de:y", ⟨"x", "m", none, 0, 1⟩)],
        [⟨"y", "fr", "de", "x", "m", none, 1, 0, 0⟩]⟩ (some "en") none).1.memory
      = []) ∧
    ((clear_cache ⟨[("en:vi:hi", ⟨"x", "m", none, 0, 1⟩)], []⟩ (some "en")
        (some "vi")).1.memory = []) :=
  ⟨(clear_filter_amended ⟨[("fr:de:y", ⟨"x", "m", none, 0, 1⟩)],
      [⟨"y", "fr", "de", "x", "m", none, 1, 0, 0⟩]⟩ (some "en") none).1 (by decide),
   by
    have h := (clear_filter_amended ⟨[("en:vi:hi", ⟨"x", "m", none, 0, 1⟩)], []⟩
      (some "en") (some "vi")).2.1 (by decide)
    rw [h]
    decide⟩

theorem translate_language_fst (cfg : Config)
    (backend : String → String → String → Option String) (now : Int)
    (st : TransState) (text source lang : String) :
    (translate_language cfg backend now st text source lang).1.1 = lang := by
  rw [translate_language]
  split
  · rfl
  · rfl

theorem translate_all_go_source_pairs (cfg : Config)
    (backend : String → String → String → Option String) (now : Int)
    (text source : String) (langs : List String) :
    ∀ (st : TransState) (p : String × String),
      p ∈ (translate_all_go cfg backend now text source langs st).1 →
      p.1 = source → p.2 = text := by
  induction langs with
  | nil =>
    intro st p hp
    simp [translate_all_go] at hp
  | cons lang rest ih =>
    intro st p hp hps
    rw [translate_all_go] at hp
    simp only [List.mem_cons] at hp
    rcases hp with hp | hp
    · have hl : lang = source := by
        rw [← translate_language_fst cfg backend now st text source lang, ← hp]
        exact hps
      rw [hp, translate_language, if_pos (by simp [hl])]
    · exact ih _ p hp hps

/-- C7 counterexample: with configured languages `["en"]`, caching off,
text `"Hello"` (whose detected language is `"en"`), and the `"auto"`
sentinel passed as source, the fan-out does NOT short-circuit the
resolved source language: the backend is invoked once and the mapping
carries the backend's answer `"HELLO-EN"`, not the original `"Hello"`. -/
theorem fanout_skip_counterexample :
    detect_language "Hello" = "en" ∧
    (translate_to_all_languages ⟨false, 86400, 4000, "llama2", ["en"]⟩
        (fun _ _ _ => some "HELLO-EN") 0 ⟨⟨[], []⟩, [], 0⟩ "Hello" "auto").1
      = [("en", "HELLO-EN")] ∧
    (translate_to_all_languages ⟨false, 86400, 4000, "llama2", ["en"]⟩
        (fun _ _ _ => some "HELLO-EN") 0 ⟨⟨[], []⟩, [], 0⟩ "Hello"
        "auto").2.backendCalls = 1 := by
  decide

/-- C7 (amended) — fan-out skip and fallback: the short-circuit compares
each target with the `source_language` argument AS PASSED (never with
the resolved language, so an `"auto"` caller gets no skip): every result
pair whose language equals the passed source carries the original text;
a branch whose target equals the passed source returns the original
text without touching the state; and a branch whose `translate_text`
fails (`none`) falls back to the original text for that language. -/
theorem fanout_skip_amended (cfg : Config)
    (backend : String → String → String → Option String) (now : Int)
    (st : TransState) (text source : String) :
    (∀ p ∈ (translate_to_all_languages cfg backend now st text source).1,
      p.1 = source → p.2 = text) ∧
    (∀ (lang : String) (st' : TransState), lang = source →
      translate_language cfg backend now st' text source lang
        = ((lang, text), st')) ∧
    (∀ (lang : String) (st' : TransState), lang ≠ source →
      (translate_text cfg backend now st' text lang source).1 = none →
      (translate_language cfg backend now st' text source lang).1
        = (lang, text)) := by
  refine ⟨?_, ?_, ?_⟩
  · intro p hp
    exact translate_all_go_source_pairs cfg backend now text source
      cfg.supported_languages st p hp
  · intro lang st' hl
    rw [translate_language, if_pos (by simp [hl])]
  · intro lang st' hne hnone
    rw [translate_language, if_neg (by simp [hne])]
    simp [hnone]

/-- Witness for C7 (amended): a branch whose target equals the passed
source returns the original text unchanged, and a branch whose backend
fails falls back to the original text. -/
theorem fanout_skip_amended_witness :
    (translate_language ⟨false, 1, 10, "m", ["en"]⟩ (fun _ _ _ => none) 0
        ⟨⟨[], []⟩, [], 0⟩ "Hi" "en" "en" = (("en", "Hi"), ⟨⟨[], []⟩, [], 0⟩)) ∧
    ((translate_language ⟨false, 1, 10, "m", ["en", "vi"]⟩ (fun _ _ _ => none) 0
        ⟨⟨[], []⟩, [], 0⟩ "Hi" "en" "vi").1 = ("vi", "Hi")) :=
  ⟨(fanout_skip_amended ⟨false, 1, 10, "m", ["en"]⟩ (fun _ _ _ => none) 0
      ⟨⟨[], []⟩, [], 0⟩ "Hi" "en").2.1 "en" ⟨⟨[], []⟩, [], 0⟩ rfl,
   (fanout_skip_amended ⟨false, 1, 10, "m", ["en", "vi"]⟩ (fun _ _ _ => none) 0
      ⟨⟨[], []⟩, [], 0⟩ "Hi" "en").2.2 "vi" ⟨⟨[], []⟩, [], 0⟩ (by decide)
      (by decide)⟩

/-- C4 — Cache-hit short-circuit: when caching is enabled and the
lookup for the resolved key yields an entry, `translate_text` returns
exactly that entry's translated text, creates no ledger row and makes
no backend call; and in the spec's concrete scenario (text `"Hello"`,
`en → vi`, empty cache, TTL 86400, backend answering `"Xin chao"`), a
second identical call returns `"Xin chao"` with the backend still
invoked only once and the ledger still holding only the first call's
row. -/
theorem cache_hit_short_circuit (cfg : Config)
    (backend : String → String → String → Option String) (now : Int)
    (st : TransState) (text target source : String) (e : MemEntry)
    (hen : cfg.cache_enabled = true)
    (hne : stripTruthy text = true)
    (hlen : text.length ≤ cfg.max_text_length)
    (hhit : (get_cached_translation cfg.cache_ttl st.cache now text
        (resolveSource text source) target).1 = some e) :
    ((translate_text cfg backend now st text target source).1
        = some e.translated_text) ∧
    ((translate_text cfg backend now st text target source).2.ledger
        = st.ledger) ∧
    ((translate_text cfg backend now st text target source).2.backendCalls
        = st.backendCalls) ∧
    ((translate_text ⟨true, 86400, 4000, "llama2", ["en", "vi"]⟩
        (fun t _ _ => if t == "Hello" then some "Xin chao" else none) 0
        (translate_text ⟨true, 86400, 4000, "llama2", ["en", "vi"]⟩
          (fun t _ _ => if t == "Hello" then some "Xin chao" else none) 0
          ⟨⟨[], []⟩, [], 0⟩ "Hello" "vi" "en").2 "Hello" "vi" "en").1
        = some "Xin chao" ∧
      (translate_text ⟨true, 86400, 4000, "llama2", ["en", "vi"]⟩
        (fun t _ _ => if t == "Hello" then some "Xin chao" else none) 0
        (translate_text ⟨true, 86400, 4000, "llama2", ["en", "vi"]⟩
          (fun t _ _ => if t == "Hello" then some "Xin chao" else none) 0
          ⟨⟨[], []⟩, [], 0⟩ "Hello" "vi" "en").2 "Hello" "vi" "en").2.backendCalls
        = 1 ∧
      (translate_text ⟨true, 86400, 4000, "llama2", ["en", "vi"]⟩
        (fun t _ _ => if t == "Hello" then some "Xin chao" else none) 0
        (translate_text ⟨true, 86400, 4000, "llama2", ["en", "vi"]⟩
          (fun t _ _ => if t == "Hello" then some "Xin chao" else none) 0
          ⟨⟨[], []⟩, [], 0⟩ "Hello" "vi" "en").2 "Hello" "vi" "en").2.ledger.length
        = 1) := by
  have hlen' : ¬ cfg.max_text_length < text.length := Nat.not_lt.mpr hlen
  refine ⟨?_, ?_, ?_, by decide⟩ <;>
    simp [translate_text, hne, hlen', hen, hhit]

/-- Witness for C4: a state whose memory tier already holds a fresh
entry for `en:vi:Hello` short-circuits to that entry's text with no
ledger row and no backend call. -/
theorem cache_hit_short_circuit_witness :
    ((translate_text ⟨true, 86400, 4000, "llama2", ["en", "vi"]⟩
        (fun _ _ _ => none) 0
        ⟨⟨[("en:vi:Hello", ⟨"Xin chao", "m", none, 0, 1⟩)], []⟩, [], 0⟩
        "Hello" "vi" "en").1 = some "Xin chao") ∧
    ((translate_text ⟨true, 86400, 4000, "llama2", ["en", "vi"]⟩
        (fun _ _ _ => none) 0
        ⟨⟨[("en:vi:Hello", ⟨"Xin chao", "m", none, 0, 1⟩)], []⟩, [], 0⟩
        "Hello" "vi" "en").2.backendCalls = 0) := by
  have h := cache_hit_short_circuit ⟨true, 86400, 4000, "llama2", ["en", "vi"]⟩
    (fun _ _ _ => none) 0
    ⟨⟨[("en:vi:Hello", ⟨"Xin chao", "m", none, 0, 1⟩)], []⟩, [], 0⟩
    "Hello" "vi" "en" ⟨"Xin chao", "m", none, 0, 1⟩
    rfl (by decide) (by decide) (by decide)
  exact ⟨h.1, h.2.2.1⟩

theorem lookupDb_some_valid (ttl : Int) (st : CacheState) (now : Int)
    (t a b key : String) (e : MemEntry) (out : CacheState)
    (h : lookupDb ttl st now t a b key = (some e, out)) :
    now - e.cached_at < ttl := by
  rw [lookupDb] at h
  by_cases hc : 2 ≤ countMatches st.db t a b
  · rw [if_pos hc] at h
    simp at h
  · rw [if_neg hc] at h
    cases hf : dbFind st.db t a b with
    | none =>
      rw [hf] at h
      simp at h
    | some row =>
      rw [hf] at h
      dsimp only at h
      by_cases hv : isCacheValidDb ttl now row = true
      · rw [if_pos hv] at h
        have he : e = ⟨row.translated_text, row.model_used, row.confidence_score,
            row.created_at, row.hit_count + 1⟩ := by
          have := congrArg Prod.fst h
          simp at this
          exact this.symm
        rw [he]
        simpa [isCacheValidDb] using hv
      · rw [if_neg hv] at h
        simp at h

theorem get_cached_some_valid (ttl : Int) (st : CacheState) (now : Int)
    (t a b : String) (e : MemEntry) (out : CacheState)
    (h : get_cached_translation ttl st now t a b = (some e, out)) :
    now - e.cached_at < ttl := by
  rw [get_cached_translation] at h
  cases hm : dictGet st.memory (cacheKey a b t) with
  | none =>
    rw [hm] at h
    dsimp only at h
    exact lookupDb_some_valid ttl st now t a b _ e out h
  | some cached =>
    rw [hm] at h
    dsimp only at h
    by_cases hv : isCacheValid ttl now cached = true
    · rw [if_pos hv] at h
      have he : e = cached := by
        have := congrArg Prod.fst h
        simp at this
        exact this.symm
      rw [he]
      simpa [isCacheValid] using hv
    · rw [if_neg hv] at h
      exact lookupDb_some_valid ttl _ now t a b _ e out h

/-- C2 — TTL expiry with lazy eviction, one global TTL for both tiers:
an entry stored at `T0` into a state with no durable row for its key is
returned by a lookup at any `now` with `now − T0 < TTL`; a lookup at any
`now` with `now − T0 ≥ TTL` returns `none` AND removes the expired
memory entry AND deletes the expired durable row (reclamation happens
only at lookup time); and in general a lookup never returns an entry
unless `now − created < TTL`. -/
theorem ttl_expiry (ttl T0 : Int) (st : CacheState) (t a b x m : String)
    (conf : Option ℚ) (hdb : dbFind st.db t a b = none) :
    (∀ now : Int, now - T0 < ttl →
      ∃ e, (get_cached_translation ttl
          (cache_translation true st T0 t a b x m conf) now t a b).1 = some e ∧
        e.translated_text = x) ∧
    (∀ now : Int, ttl ≤ now - T0 →
      ((get_cached_translation ttl
          (cache_translation true st T0 t a b x m conf) now t a b).1 = none ∧
        dictGet (get_cached_translation ttl
          (cache_translation true st T0 t a b x m conf) now t a b).2.memory
          (cacheKey a b t) = none ∧
        dbFind (get_cached_translation ttl
          (cache_translation true st T0 t a b x m conf) now t a b).2.db t a b
          = none)) ∧
    (∀ (st' : CacheState) (now : Int) (e : MemEntry) (out : CacheState),
      get_cached_translation ttl st' now t a b = (some e, out) →
      now - e.cached_at < ttl) := by
  have hmem1 := cache_translation_memory st T0 t a b x m conf
  have hdb1 := cache_translation_db_insert st T0 t a b x m conf hdb
  have hrow1 : rowMatches t a b (⟨t, a, b, x, m, conf, 1, T0, T0⟩ : CacheRow)
      = true := rowMatches_self t a b x m conf 1 T0 T0
  refine ⟨?_, ?_, ?_⟩
  · intro now hnow
    refine ⟨⟨x, m, conf, T0, 1⟩, ?_, rfl⟩
    have hvalid : isCacheValid ttl now ⟨x, m, conf, T0, 1⟩ = true := by
      simp only [isCacheValid]
      exact decide_eq_true hnow
    simp [get_cached_translation, hmem1, dictGet_dictSet, hvalid]
  · intro now hnow
    have hvalid : isCacheValid ttl now ⟨x, m, conf, T0, 1⟩ = false := by
      simp only [isCacheValid]
      simp
      omega
    have hvaldb : isCacheValidDb ttl now (⟨t, a, b, x, m, conf, 1, T0, T0⟩ :
        CacheRow) = false := by
      simp only [isCacheValidDb]
      simp
      omega
    have hcnt : countMatches (cache_translation true st T0 t a b x m conf).db
        t a b = 1 := by
      rw [hdb1]
      exact countMatches_append_one st.db t a b _ hdb hrow1
    have hfind : dbFind (cache_translation true st T0 t a b x m conf).db t a b
        = some ⟨t, a, b, x, m, conf, 1, T0, T0⟩ := by
      rw [hdb1]
      exact dbFind_append_one st.db t a b _ hdb hrow1
    have hdel : dbDeleteFirst (cache_translation true st T0 t a b x m conf).db
        t a b = st.db := by
      rw [hdb1]
      exact dbDeleteFirst_append_one st.db t a b _ hdb hrow1
    have hres : get_cached_translation ttl
        (cache_translation true st T0 t a b x m conf) now t a b
        = (none,
            ⟨dictDel (cache_translation true st T0 t a b x m conf).memory
              (cacheKey a b t), st.db⟩) := by
      rw [get_cached_translation, hmem1, dictGet_dictSet]
      dsimp only
      rw [if_neg (by simp [hvalid])]
      rw [lookupDb]
      dsimp only
      rw [hcnt, if_neg (by omega), hfind]
      dsimp only
      rw [if_neg (by simp [hvaldb])]
      rw [hdel]
    rw [hres]
    exact ⟨rfl, dictGet_dictDel _ _, hdb⟩
  · intro st' now e out h
    exact get_cached_some_valid ttl st' now t a b e out h

/-- Witness for C2: with TTL 10 and a store at time 0 into the empty
cache, lookup at time 9 returns the stored text while lookup at time 11
returns `none` with both tiers emptied of the key. -/
theorem ttl_expiry_witness :
    (∃ e, (get_cached_translation 10
        (cache_translation true ⟨[], []⟩ 0 "hi" "en" "vi" "chao" "m" none)
        9 "hi" "en" "vi").1 = some e ∧ e.translated_text = "chao") ∧
    ((get_cached_translation 10
        (cache_translation true ⟨[], []⟩ 0 "hi" "en" "vi" "chao" "m" none)
        11 "hi" "en" "vi").1 = none) :=
  ⟨(ttl_expiry 10 0 ⟨[], []⟩ "hi" "en" "vi" "chao" "m" none (by decide)).1 9
    (by decide),
   ((ttl_expiry 10 0 ⟨[], []⟩ "hi" "en" "vi" "chao" "m" none (by decide)).2.1 11
    (by decide)).1⟩

end LangTrans
